import Mathlib

/-!
# Verification of the wcp-products-alert change-detection pipeline

Shallow embedding of the monitor program (`src/unnamed/part_000`, the full
revision with Slack delivery and first-run suppression; `src/main.js` is an
earlier revision of the same `fetchProducts` / `loadCache` / `saveCache` /
`checkForNewProducts` functions).

Modelling boundary: DOM extraction (the `querySelectorAll` / selector walk of
lines 40-52) is represented by the environment already providing the ordered
sequence of raw field-sets the selectors would yield, with the image URL in its
final normalized form.  A page-fetch failure — `fetch(URL)` rejecting, or the
`!response.ok` throw of line 32-34 — is represented by `Env.page = none`; both
paths land in the same `catch` of lines 83-86, which returns `[]`.  The cache
file on disk is an `Option (List ProductRecord)`: `none` when the file does not
exist, `some l` when it holds the serialized list `l`.  Network image downloads
are an oracle `imageOk : String → Bool` (does `fetch(imageUrl)` succeed), and
`crypto.randomBytes(16).toString('hex')` is a supply `freshIds : Nat → String`
indexed by the number of downloads performed so far in the cycle.  Side effects
of one cycle are reified as a trace of `Event`s (one `notify` per
`notifyNewProduct` call, one `save` per `saveCache` call), in program order.
-/

/-- A raw product field-set as extracted from the listing page by the
selectors of lines 46-52: name, absolute product page URL, normalized image
URL, and display price. -/
structure RawProduct where
  name : String
  productPage : String
  imageUrl : String
  price : String
deriving DecidableEq, Repr

/-- A product record as built by `fetchProducts` (line 73) and as persisted in
`product_cache.json`.  `imageId` and `cachedTime` are `Option` because the
store format tolerates entries missing them (older/bootstrap entries;
`cachedTime` is only stamped on the notification path of line 118). -/
structure ProductRecord where
  name : String
  productPage : String
  imageId : Option String
  imageUrl : String
  price : String
  cachedTime : Option String
deriving DecidableEq, Repr

/-- Function `loadCache` (lines 89-95): if the cache file exists, parse and return its
contents; otherwise return the empty list.  The file state is `none` when
`fs.existsSync(CACHE_FILE)` is false. -/
def loadCache : Option (List ProductRecord) → List ProductRecord
  | some ps => ps
  | none => []

/-- The image-resolution step of `fetchProducts` (lines 54-71) for one
product: look the name up in the cache snapshot; if a cached record exists and
carries an `imageId`, reuse it with no download; otherwise generate a fresh
identifier and download the image.  Returns `some (imageId, downloaded)` on
success and `none` when the image fetch fails (the `await fetch(imageUrl)` of
line 66 rejecting, which propagates to the `catch` of lines 83-86). -/
def resolveImage (cached : List ProductRecord) (imageOk : String → Bool)
    (fresh : String) (name imageUrl : String) : Option (String × Bool) :=
  match cached.find? (fun p => p.name == name) with
  | some c =>
    match c.imageId with
    | some id => some (id, false)
    | none => if imageOk imageUrl then some (fresh, true) else none
  | none => if imageOk imageUrl then some (fresh, true) else none

/-- Whether the resolution of lines 54-71 takes the download branch for
`name`: true when no cached record has that name, or the cached record lacks
an `imageId` (the `!cachedProduct || !cachedProduct.imageId` test of
line 58). -/
def needsDownload (cached : List ProductRecord) (name : String) : Bool :=
  match cached.find? (fun p => p.name == name) with
  | some c => c.imageId.isNone
  | none => true

/-- The `for` loop of `fetchProducts` (lines 44-77): processes the raw
products in order, resolving each image and pushing the assembled record.
Returns `(some products, downloads)` when the loop completes, and
`(none, downloads)` when an image fetch rejects mid-loop — the exception
escapes the loop, so the already-pushed products are discarded by the `catch`.
`downloads` is the list of image URLs for which a network fetch was attempted,
in order; `ctr` counts downloads performed so far and indexes the fresh-id
supply. -/
def fetchLoop (cached : List ProductRecord) (imageOk : String → Bool)
    (freshIds : Nat → String) :
    List RawProduct → Nat → Option (List ProductRecord) × List String
  | [], _ => (some [], [])
  | r :: rest, ctr =>
    match resolveImage cached imageOk (freshIds ctr) r.name r.imageUrl with
    | none => (none, [r.imageUrl])
    | some (id, downloaded) =>
      let ctr' := if downloaded then ctr + 1 else ctr
      let dl := if downloaded then [r.imageUrl] else []
      match fetchLoop cached imageOk freshIds rest ctr' with
      | (none, dls) => (none, dl ++ dls)
      | (some ps, dls) =>
        (some ({ name := r.name, productPage := r.productPage,
                 imageId := some id, imageUrl := r.imageUrl,
                 price := r.price, cachedTime := none } :: ps), dl ++ dls)

/-- One cycle's environment: the listing page's extracted raw products
(`none` when the page fetch fails or returns a non-success status), the
image-download oracle, the random-identifier supply, and the wall-clock
timestamp `new Date().toISOString()` used on the notification path. -/
structure Env where
  page : Option (List RawProduct)
  imageOk : String → Bool
  freshIds : Nat → String
  now : String

/-- Function `fetchProducts` (lines 29-87): fetch the listing page, extract the raw
products, and run the resolution loop against the cache snapshot.  Any
exception — page fetch failure, non-ok status, or an image fetch rejection
inside the loop — reaches the `catch` of lines 83-86, which logs and returns
the empty list.  The second component is the list of attempted image
downloads (URLs, in order). -/
def fetchProducts (env : Env) (cached : List ProductRecord) :
    List ProductRecord × List String :=
  match env.page with
  | none => ([], [])
  | some raws =>
    match fetchLoop cached env.imageOk env.freshIds raws 0 with
    | (some ps, dls) => (ps, dls)
    | (none, dls) => ([], dls)

/-- The diff of `checkForNewProducts` (lines 111-113): keep exactly the
current products whose `name` equals no cached product's `name` — exact,
case-sensitive string comparison, order of `current` preserved. -/
def diffNew (current cached : List ProductRecord) : List ProductRecord :=
  current.filter (fun p => ! cached.any (fun c => c.name == p.name))

/-- The in-place mutation `product.cachedTime = new Date().toISOString()` of
line 118, applied to each new product just before it is notified (and hence
also visible in the list later saved, since the same objects are saved). -/
def stamp (now : String) (p : ProductRecord) : ProductRecord :=
  { p with cachedTime := some now }

/-- An observable side effect of one cycle: a `notifyNewProduct` call
(lines 101-104, which logs and fires the Slack message) carrying the product
as mutated at that point, or a `saveCache` call (lines 97-99) carrying the
full list written to the cache file. -/
inductive Event where
  | notify (p : ProductRecord)
  | save (s : List ProductRecord)
deriving DecidableEq, Repr

/-- The products carried by the `notify` events of a trace, in order. -/
def notifiedProducts (tr : List Event) : List ProductRecord :=
  tr.filterMap fun e =>
    match e with
    | Event.notify p => some p
    | Event.save _ => none

/-- Helper for `persistedBeforeNotified`: `seen` records whether a `save`
event has already occurred. -/
def persistedBeforeNotifiedAux : List Event → Bool → Bool
  | [], _ => true
  | Event.save _ :: rest, _ => persistedBeforeNotifiedAux rest true
  | Event.notify _ :: rest, seen => seen && persistedBeforeNotifiedAux rest seen

/-- The ordering property the spec asserts of a cycle's trace: every `notify`
event is preceded by some `save` event (the store is persisted before any
notification is emitted). -/
def persistedBeforeNotified (tr : List Event) : Bool :=
  persistedBeforeNotifiedAux tr false

/-- Function `checkForNewProducts` (lines 106-133), one full cycle over the cache-file
state.  Loads the cache (both `fetchProducts` at line 42 and line 109 read the
same unmodified file, hence the same snapshot), diffs, and then — in program
order — when the cache was non-empty, stamps and notifies each new product
(lines 116-121), and finally, when there are new products, saves the appended
list (lines 130-132).  Returns the event trace and the resulting cache-file
state; when nothing is saved the file is untouched. -/
def checkForNewProducts (env : Env) (file : Option (List ProductRecord)) :
    List Event × Option (List ProductRecord) :=
  let cached := loadCache file
  let current := (fetchProducts env cached).1
  let newProducts := diffNew current cached
  let stamped := newProducts.map (stamp env.now)
  let notifyEvents :=
    if cached.length > 0 then stamped.map Event.notify else []
  let toSave := if cached.length > 0 then stamped else newProducts
  if toSave.length > 0 then
    (notifyEvents ++ [Event.save (cached ++ toSave)], some (cached ++ toSave))
  else
    (notifyEvents, file)

/-- Cache-file states reachable by running cycles from the initial state
(no cache file on disk), under arbitrary environments. -/
inductive ReachableFile : Option (List ProductRecord) → Prop where
  | init : ReachableFile none
  | step (env : Env) {f : Option (List ProductRecord)} :
      ReachableFile f → ReachableFile (checkForNewProducts env f).2

/-- An environment whose extracted listing (when the page fetch succeeds) has
pairwise-distinct product names. -/
def pageNamesNodup (env : Env) : Prop :=
  ∀ raws, env.page = some raws → (raws.map RawProduct.name).Nodup

/-- Cache-file states reachable from the initial state under environments
whose extractions never repeat a product name. -/
inductive ReachableFileNodup : Option (List ProductRecord) → Prop where
  | init : ReachableFileNodup none
  | step (env : Env) {f : Option (List ProductRecord)} :
      pageNamesNodup env → ReachableFileNodup f →
      ReachableFileNodup (checkForNewProducts env f).2

/-- The Slack configuration block of `config.json`, when present.
`enableBot` is `Option` because the JSON field may be absent. -/
structure SlackConfig where
  enableBot : Option Bool
  token : String
  channelName : String
deriving DecidableEq, Repr

/-- The program configuration: `slack` is `none` when `config.json` has no
`slack` object at all. -/
structure Config where
  slack : Option SlackConfig
deriving DecidableEq, Repr

/-- The message `sendToSlack` posts (lines 144-176), reduced to its payload
fields. -/
structure SlackMessage where
  channel : String
  username : String
  productField : String
  priceField : String
  imageUrl : String
  altText : String
deriving DecidableEq, Repr

/-- Outcome of a `sendToSlack` call: skipped by the `enableBot === false`
guard; a message posted (delivery failure is caught at lines 182-184 and only
logged, so it is still `posted` from the caller's view); or a `TypeError`
thrown when `config.slack` is absent — `config.slack?.enableBot === false`
evaluates to `undefined === false`, i.e. false, so the guard does not fire,
and line 142 then reads `token` of `undefined`. -/
inductive SlackResult where
  | skipped
  | posted (msg : SlackMessage)
  | typeError
deriving DecidableEq, Repr

/-- Function `sendToSlack` (lines 135-185). -/
def sendToSlack (config : Config) (newProductName newProductPrice
    newProductLink newProductImageUrl : String) : SlackResult :=
  let disabled :=
    match config.slack with
    | some s => s.enableBot == some false
    | none => false
  if disabled then SlackResult.skipped
  else
    match config.slack with
    | none => SlackResult.typeError
    | some s =>
      SlackResult.posted
        { channel := s.channelName
          username := "West Coast Products Alerts"
          productField :=
            "*Product:*\n<" ++ newProductLink ++ "|" ++ newProductName ++ ">"
          priceField := "*Price:*\n" ++ newProductPrice
          imageUrl := newProductImageUrl
          altText := newProductName }

/-! ## Concrete values used by counterexamples and witnesses -/

/-- A product record already present in the store. -/
def pA : ProductRecord :=
  { name := "Alpha", productPage := "https://wcproducts.com/p/alpha",
    imageId := some "aaaa0000", imageUrl := "https://cdn/alpha_145x.png",
    price := "$10.00", cachedTime := some "2024-01-01T00:00:00.000Z" }

/-- A raw product, named differently from `pA`, as freshly extracted. -/
def rB : RawProduct :=
  { name := "Beta", productPage := "https://wcproducts.com/p/beta",
    imageUrl := "https://cdn/beta_145x.png", price := "$20.00" }

/-- An environment whose page fetch fails. -/
def envFail : Env :=
  { page := none, imageOk := fun _ => true, freshIds := fun n => toString n,
    now := "2024-02-02T00:00:00.000Z" }

/-- An environment that successfully extracts the single product `rB`, with
all image downloads succeeding. -/
def envB : Env :=
  { page := some [rB], imageOk := fun _ => true,
    freshIds := fun n => "fresh" ++ toString n,
    now := "2024-02-02T00:00:00.000Z" }

/-! ## C4: the diff -/

/-- C4: `diffNew` classifies a current record as new iff no cached record has
an exactly equal (case-sensitive, unnormalized) name, and the returned
sequence is a sublist of `current` (its order is preserved).  Purity and
non-mutation of the inputs are intrinsic to the embedding: `diffNew` is a
total function of its two arguments. -/
theorem diffNew_spec (current cached : List ProductRecord) :
    (diffNew current cached).Sublist current ∧
    (∀ p, p ∈ diffNew current cached ↔
      p ∈ current ∧ ∀ c ∈ cached, c.name ≠ p.name) := by
  refine ⟨List.filter_sublist current, fun p => ?_⟩
  simp only [diffNew, List.mem_filter, Bool.not_eq_true', List.any_eq_false,
    beq_iff_eq, ne_eq]

/-- The record `fetchProducts` builds from `rB` with fresh identifier
`fresh0`. -/
def pB : ProductRecord :=
  { name := "Beta", productPage := "https://wcproducts.com/p/beta",
    imageId := some "fresh0", imageUrl := "https://cdn/beta_145x.png",
    price := "$20.00", cachedTime := none }

/-- Witness for C4 at a concrete input: the record built from `rB` is kept by
the diff against a store containing only `pA`. -/
theorem diffNew_spec_witness : pB ∈ diffNew [pB] [pA] :=
  ((diffNew_spec [pB] [pA]).2 pB).mpr ⟨by decide, by decide⟩

/-! ## C7: loading a missing store file -/

/-- C7: `loadCache` on a non-existent cache file returns the empty list and
is total (no error path exists: the `fs.existsSync` guard of line 90 routes
the missing-file case to `return []`). -/
theorem loadCache_missing_file : loadCache none = [] := rfl

/-! ## C9: page-fetch failure aborts the cycle with no state change -/

/-- C9: when the listing-page fetch fails (unreachable, or the non-ok throw
of lines 32-34 — both reach the `catch` returning `[]`), the cycle emits no
events and leaves the cache-file state unchanged, so the next scheduled cycle
retries from the same state. -/
theorem fetch_failure_aborts_cycle (env : Env)
    (file : Option (List ProductRecord)) (hpage : env.page = none) :
    checkForNewProducts env file = ([], file) := by
  simp [checkForNewProducts, fetchProducts, hpage, diffNew]

/-- Witness for C9: a failing page fetch against a store holding `pA`. -/
theorem fetch_failure_aborts_cycle_witness :
    checkForNewProducts envFail (some [pA]) = ([], some [pA]) :=
  fetch_failure_aborts_cycle envFail (some [pA]) rfl

/-! ## C10: no new products, no rewrite of the store file -/

/-- C10: when the diff classifies zero products as new, no `save` event is
emitted (the `newProducts.length > 0` guard of line 130 skips `saveCache`
entirely) and the cache-file state is returned untouched — not rewritten with
an equal list. -/
theorem no_new_skips_save (env : Env) (file : Option (List ProductRecord))
    (h : diffNew (fetchProducts env (loadCache file)).1 (loadCache file) = []) :
    (checkForNewProducts env file).2 = file ∧
      ∀ s, Event.save s ∉ (checkForNewProducts env file).1 := by
  simp [checkForNewProducts, h]

/-- Witness for C10: a cycle that re-extracts exactly the already-known
product `pA` finds nothing new and leaves the file untouched. -/
theorem no_new_skips_save_witness :
    (checkForNewProducts envFail (some [pA])).2 = some [pA] ∧
      ∀ s, Event.save s ∉ (checkForNewProducts envFail (some [pA])).1 :=
  no_new_skips_save envFail (some [pA]) (by decide)

/-! ## Helper lemmas on traces and the diff -/

/-- Lemma: `notifiedProducts` distributes over append. -/
theorem notifiedProducts_append (a b : List Event) :
    notifiedProducts (a ++ b) = notifiedProducts a ++ notifiedProducts b :=
  List.filterMap_append a b _

/-- A trace of pure `notify` events notifies exactly its products, in
order. -/
theorem notifiedProducts_map_notify (l : List ProductRecord) :
    notifiedProducts (l.map Event.notify) = l := by
  induction l with
  | nil => rfl
  | cons p t ih =>
    simp only [List.map_cons, notifiedProducts, List.filterMap_cons] at *
    rw [ih]

/-- A lone `save` event notifies nothing. -/
theorem notifiedProducts_save (s : List ProductRecord) :
    notifiedProducts [Event.save s] = [] := rfl

/-- Against an empty known-set, the diff keeps every current record. -/
theorem diffNew_nil (current : List ProductRecord) :
    diffNew current [] = current := by
  simp [diffNew]

/-! ## C2: first-run suppression, steady-state one-notification-per-record -/

/-- C2: when the store loaded at cycle start is empty, the cycle emits zero
notifications and every extracted product ends up persisted in the resulting
store (first-run bootstrap, lines 116-124); when the loaded store is
non-empty, the cycle's notified products are exactly the diff's new records
(stamped with the cycle's timestamp), one notification per new record, in
order. -/
theorem bootstrap_and_steady_state (env : Env)
    (file : Option (List ProductRecord)) :
    (loadCache file = [] →
      notifiedProducts (checkForNewProducts env file).1 = [] ∧
      ∀ p ∈ (fetchProducts env (loadCache file)).1,
        p ∈ loadCache (checkForNewProducts env file).2) ∧
    (loadCache file ≠ [] →
      notifiedProducts (checkForNewProducts env file).1 =
        (diffNew (fetchProducts env (loadCache file)).1 (loadCache file)).map
          (stamp env.now)) := by
  constructor
  · intro h
    simp only [checkForNewProducts, h, List.length_nil, gt_iff_lt,
      Nat.lt_irrefl, if_false, diffNew_nil, List.nil_append]
    split
    · refine ⟨rfl, fun p hp => ?_⟩
      simpa [loadCache] using hp
    · rename_i hlen
      have : (fetchProducts env []).1 = [] := by
        rcases hzero : (fetchProducts env []).1 with _ | ⟨q, t⟩
        · rfl
        · exact absurd (by rw [hzero]; simp) hlen
      refine ⟨rfl, fun p hp => ?_⟩
      rw [this] at hp
      exact absurd hp (List.not_mem_nil p)
  · intro h
    have hlen : (loadCache file).length > 0 := List.length_pos.mpr h
    simp only [checkForNewProducts, if_pos hlen]
    split
    · rw [notifiedProducts_append, notifiedProducts_map_notify,
        notifiedProducts_save, List.append_nil]
    · rename_i hlen2
      have : (diffNew (fetchProducts env (loadCache file)).1
          (loadCache file)).map (stamp env.now) = [] := by
        rcases hzero : (diffNew (fetchProducts env (loadCache file)).1
            (loadCache file)).map (stamp env.now) with _ | ⟨q, t⟩
        · rfl
        · exact absurd (by rw [hzero]; simp) hlen2
      rw [this, notifiedProducts_map_notify]

/-- Witness for C2: one bootstrap cycle from a missing store file, extracting
the single product `rB`, notifies nothing and persists the extracted
record. -/
theorem bootstrap_and_steady_state_witness :
    notifiedProducts (checkForNewProducts envB none).1 = [] ∧
      ∀ p ∈ (fetchProducts envB (loadCache none)).1,
        p ∈ loadCache (checkForNewProducts envB none).2 :=
  (bootstrap_and_steady_state envB none).1 rfl

/-! ## C1: order of persisting and notifying -/

/-- Counterexample to C1: with the known store `[pA]` and the freshly
extracted new product `rB`, the cycle's trace is a `notify` event followed by
the `save` event — `notifyNewProduct` runs in the `forEach` of lines 116-121
and `saveCache` only afterwards at lines 130-132 — so the updated store is
NOT persisted before the notification is emitted. -/
theorem persist_before_notify_counterexample :
    (checkForNewProducts envB (some [pA])).1 =
      [Event.notify (stamp envB.now pB), Event.save [pA, stamp envB.now pB]] ∧
    persistedBeforeNotified (checkForNewProducts envB (some [pA])).1 = false :=
  ⟨rfl, rfl⟩

/-- C1 as amended: in every cycle that detects new products from a non-empty
known-set, the trace is exactly the notifications (one per stamped new
record, in diff order) followed by the single `save` of the appended store —
notifications are emitted first, and the store is persisted only after all of
them. -/
theorem notify_then_persist (env : Env) (file : Option (List ProductRecord))
    (h1 : loadCache file ≠ [])
    (h2 : diffNew (fetchProducts env (loadCache file)).1 (loadCache file) ≠ []) :
    (checkForNewProducts env file).1 =
      ((diffNew (fetchProducts env (loadCache file)).1 (loadCache file)).map
          (stamp env.now)).map Event.notify ++
        [Event.save (loadCache file ++
          (diffNew (fetchProducts env (loadCache file)).1 (loadCache file)).map
            (stamp env.now))] := by
  have hlen : (loadCache file).length > 0 := List.length_pos.mpr h1
  have hlen2 : ((diffNew (fetchProducts env (loadCache file)).1
      (loadCache file)).map (stamp env.now)).length > 0 := by
    rw [List.length_map]
    exact List.length_pos.mpr h2
  simp only [checkForNewProducts, if_pos hlen, if_pos hlen2]

/-- Witness for the amended C1: the concrete cycle of the counterexample has
exactly that notify-then-save trace. -/
theorem notify_then_persist_witness :
    (checkForNewProducts envB (some [pA])).1 =
      ((diffNew (fetchProducts envB (loadCache (some [pA]))).1
          (loadCache (some [pA]))).map (stamp envB.now)).map Event.notify ++
        [Event.save (loadCache (some [pA]) ++
          (diffNew (fetchProducts envB (loadCache (some [pA]))).1
            (loadCache (some [pA]))).map (stamp envB.now))] :=
  notify_then_persist envB (some [pA]) (by decide) (by decide)

/-! ## C3: behaviour on a per-product image failure -/

/-- Image resolution fails exactly when the product needs a download (no
cached record, or a cached record without `imageId`) and the download
fails. -/
theorem resolveImage_eq_none_iff (cached : List ProductRecord)
    (ok : String → Bool) (fresh name url : String) :
    resolveImage cached ok fresh name url = none ↔
      needsDownload cached name = true ∧ ok url = false := by
  unfold resolveImage needsDownload
  rcases h : cached.find? (fun p => p.name == name) with _ | c
  · rcases hok : ok url <;> simp [h, hok]
  · rcases hc : c.imageId with _ | id
    · rcases hok : ok url <;> simp [h, hc, hok]
    · simp [h, hc]

/-- If any product of the listing needs a download whose image fetch fails,
the whole `for` loop of `fetchProducts` throws: the loop result is `none`,
regardless of where in the list the failing product sits. -/
theorem fetchLoop_fails_of_bad_image (cached : List ProductRecord)
    (ok : String → Bool) (fresh : Nat → String) (r : RawProduct)
    (hneed : needsDownload cached r.name = true)
    (hbad : ok r.imageUrl = false) :
    ∀ raws : List RawProduct, r ∈ raws →
      ∀ ctr, (fetchLoop cached ok fresh raws ctr).1 = none := by
  intro raws
  induction raws with
  | nil => intro hr; cases hr
  | cons a t ih =>
    intro hr ctr
    rcases List.mem_cons.mp hr with rfl | hmem
    · have hres : resolveImage cached ok (fresh ctr) r.name r.imageUrl = none :=
        (resolveImage_eq_none_iff cached ok (fresh ctr) r.name r.imageUrl).mpr
          ⟨hneed, hbad⟩
      simp [fetchLoop, hres]
    · simp only [fetchLoop]
      rcases hres : resolveImage cached ok (fresh ctr) a.name a.imageUrl
        with _ | p
      · rfl
      · rcases p with ⟨id, downloaded⟩
        have hrec := ih hmem (if downloaded then ctr + 1 else ctr)
        rcases hfl : fetchLoop cached ok fresh t
            (if downloaded then ctr + 1 else ctr) with ⟨o, dls⟩
        rw [hfl] at hrec
        simp only at hrec
        subst hrec
        simp [hfl]

/-- A second known record, used to make the known-set non-empty in
single-failure scenarios. -/
def rC : RawProduct :=
  { name := "Gamma", productPage := "https://wcproducts.com/p/gamma",
    imageUrl := "https://cdn/gamma_145x.png", price := "$30.00" }

/-- A raw product whose image download will fail. -/
def rD : RawProduct :=
  { name := "Delta", productPage := "https://wcproducts.com/p/delta",
    imageUrl := "https://cdn/delta_145x.png", price := "$40.00" }

/-- An environment extracting the three new products `rB`, `rC`, `rD`, where
only `rD`'s image download fails. -/
def envPartial : Env :=
  { page := some [rB, rC, rD],
    imageOk := fun u => u != "https://cdn/delta_145x.png",
    freshIds := fun n => "fresh" ++ toString n,
    now := "2024-02-02T00:00:00.000Z" }

/-- Counterexample to C3: with known store `[pA]` and the batch of new
products `rB`, `rC`, `rD` where only `rD`'s image fetch fails, the exception
escapes the loop into the `catch` of lines 83-86, `fetchProducts` returns
`[]`, and the cycle emits no events at all and leaves the store untouched —
`rB` and `rC` are neither persisted nor notified, contradicting the claimed
isolation of the single failing product. -/
theorem single_failure_counterexample :
    (fetchProducts envPartial (loadCache (some [pA]))).1 = [] ∧
      (checkForNewProducts envPartial (some [pA])).1 = [] ∧
      (checkForNewProducts envPartial (some [pA])).2 = some [pA] :=
  ⟨rfl, rfl, rfl⟩

/-- C3 as amended: if any product of the extracted listing needs an image
download and that download fails, the whole cycle is aborted — no product is
persisted or notified, the store is untouched, and every product (the failed
one included) is reconsidered next cycle. -/
theorem bad_image_aborts_cycle (env : Env) (file : Option (List ProductRecord))
    (raws : List RawProduct) (r : RawProduct)
    (hpage : env.page = some raws) (hr : r ∈ raws)
    (hneed : needsDownload (loadCache file) r.name = true)
    (hbad : env.imageOk r.imageUrl = false) :
    (checkForNewProducts env file).1 = [] ∧
      (checkForNewProducts env file).2 = file := by
  have hfail := fetchLoop_fails_of_bad_image (loadCache file) env.imageOk
    env.freshIds r hneed hbad raws hr 0
  have hcur : (fetchProducts env (loadCache file)).1 = [] := by
    unfold fetchProducts
    rw [hpage]
    rcases hfl : fetchLoop (loadCache file) env.imageOk env.freshIds raws 0
      with ⟨o, dls⟩
    rw [hfl] at hfail
    simp only at hfail
    subst hfail
    simp [hfl]
  simp [checkForNewProducts, hcur, diffNew]

/-- Witness for the amended C3: the concrete one-bad-image batch aborts the
cycle with no events and an unchanged store. -/
theorem bad_image_aborts_cycle_witness :
    (checkForNewProducts envPartial (some [pA])).1 = [] ∧
      (checkForNewProducts envPartial (some [pA])).2 = some [pA] :=
  bad_image_aborts_cycle envPartial (some [pA]) [rB, rC, rD] rD rfl
    (by decide) (by decide) (by decide)

/-! ## C8: notification gating by configuration -/

/-- A configuration with no `slack` object at all. -/
def cfgAbsent : Config := { slack := none }

/-- A configuration with the Slack bot explicitly disabled. -/
def cfgDisabled : Config :=
  { slack := some { enableBot := some false, token := "xoxb-test",
                    channelName := "wcp-alerts" } }

/-- Counterexample to C8: when `config.slack` is entirely absent, the guard
`config.slack?.enableBot === false` of line 136 evaluates to
`undefined === false`, i.e. false, so the function proceeds and line 142
throws a `TypeError` reading `token` of `undefined` — the call is not a
no-op and does raise an error. -/
theorem slack_absent_counterexample :
    sendToSlack cfgAbsent "Beta" "$20.00" "https://wcproducts.com/p/beta"
        "https://cdn/beta_145x.png" = SlackResult.typeError ∧
      sendToSlack cfgAbsent "Beta" "$20.00" "https://wcproducts.com/p/beta"
        "https://cdn/beta_145x.png" ≠ SlackResult.skipped :=
  ⟨rfl, by decide⟩

/-- C8 as amended: when the Slack configuration is present with `enableBot`
set exactly to `false`, delivery is a no-op (skipped, no error); when the
Slack configuration is entirely absent, the guard does not fire and the
delivery attempt raises a `TypeError` instead of being a no-op. -/
theorem slack_gating (n p l i : String) :
    (∀ cfg s, cfg.slack = some s → s.enableBot = some false →
      sendToSlack cfg n p l i = SlackResult.skipped) ∧
    (∀ cfg, cfg.slack = none →
      sendToSlack cfg n p l i = SlackResult.typeError) := by
  constructor
  · intro cfg s hs hd
    simp [sendToSlack, hs, hd]
  · intro cfg h
    simp [sendToSlack, h]

/-- Witness for the amended C8: a disabled configuration skips delivery. -/
theorem slack_gating_witness :
    sendToSlack cfgDisabled "Beta" "$20.00" "https://wcproducts.com/p/beta"
        "https://cdn/beta_145x.png" = SlackResult.skipped :=
  (slack_gating "Beta" "$20.00" "https://wcproducts.com/p/beta"
    "https://cdn/beta_145x.png").1 cfgDisabled _ rfl rfl

/-! ## C6: stability of image resolution across cycles -/

/-- Every record assembled by the `for` loop carries an `imageId` (line 73
always pushes the resolved `imageId`). -/
theorem fetchLoop_imageId (cached : List ProductRecord) (ok : String → Bool)
    (fresh : Nat → String) :
    ∀ (raws : List RawProduct) (ctr : Nat) (ps : List ProductRecord)
      (dls : List String),
      fetchLoop cached ok fresh raws ctr = (some ps, dls) →
      ∀ p ∈ ps, p.imageId ≠ none := by
  intro raws
  induction raws with
  | nil =>
    intro ctr ps dls h p hp
    simp only [fetchLoop, Prod.mk.injEq, Option.some.injEq] at h
    rw [← h.1] at hp
    cases hp
  | cons a t ih =>
    intro ctr ps dls h p hp
    simp only [fetchLoop] at h
    rcases hres : resolveImage cached ok (fresh ctr) a.name a.imageUrl
      with _ | pr
    · rw [hres] at h
      simp at h
    · rcases pr with ⟨id, downloaded⟩
      rw [hres] at h
      simp only at h
      rcases hfl : fetchLoop cached ok fresh t
          (if downloaded then ctr + 1 else ctr) with ⟨o, dls'⟩
      rw [hfl] at h
      rcases o with _ | ps'
      · simp at h
      · simp only [Prod.mk.injEq, Option.some.injEq] at h
        rw [← h.1] at hp
        rcases List.mem_cons.mp hp with rfl | hmem
        · simp
        · exact ih (if downloaded then ctr + 1 else ctr) ps' dls' hfl p hmem

/-- Every product returned by `fetchProducts` carries an `imageId`; in
particular every record ever persisted as new carries one. -/
theorem fetchProducts_imageId (env : Env) (cached : List ProductRecord) :
    ∀ p ∈ (fetchProducts env cached).1, p.imageId ≠ none := by
  intro p hp
  unfold fetchProducts at hp
  rcases hpage : env.page with _ | raws
  · rw [hpage] at hp
    cases hp
  · rw [hpage] at hp
    rcases hfl : fetchLoop cached env.imageOk env.freshIds raws 0 with ⟨o, dls⟩
    rcases o with _ | ps
    · simp only [hfl, List.not_mem_nil] at hp
    · simp only [hfl] at hp
      exact fetchLoop_imageId cached env.imageOk env.freshIds raws 0 ps dls
        hfl p hp

/-- A store record that lacks the `imageId` field (tolerated by the store
format for older/bootstrap entries). -/
def pNoImage : ProductRecord :=
  { name := "Epsilon", productPage := "https://wcproducts.com/p/epsilon",
    imageId := none, imageUrl := "https://cdn/epsilon_145x.png",
    price := "$50.00", cachedTime := none }

/-- The raw extraction of the same product `Epsilon`. -/
def rE : RawProduct :=
  { name := "Epsilon", productPage := "https://wcproducts.com/p/epsilon",
    imageUrl := "https://cdn/epsilon_145x.png", price := "$50.00" }

/-- Cycle-1 environment for the stability scenario. -/
def envCycle1 : Env :=
  { page := some [rE], imageOk := fun _ => true,
    freshIds := fun n => "one" ++ toString n,
    now := "2024-03-03T00:00:00.000Z" }

/-- Cycle-2 environment for the stability scenario (fresh random identifiers
differ from cycle 1's). -/
def envCycle2 : Env :=
  { page := some [rE], imageOk := fun _ => true,
    freshIds := fun n => "two" ++ toString n,
    now := "2024-03-03T00:03:00.000Z" }

/-- Counterexample to C6: with the store holding an `Epsilon` record without
an `imageId` field, the `!cachedProduct.imageId` test of line 58 sends every
cycle down the download branch; the diff then classifies `Epsilon` as known,
so the store is never updated.  Across two cycles the two resolutions return
two different fresh identifiers and two network downloads of the image
occur. -/
theorem image_stability_counterexample :
    resolveImage (loadCache (some [pNoImage])) envCycle1.imageOk
        (envCycle1.freshIds 0) rE.name rE.imageUrl = some ("one0", true) ∧
      (checkForNewProducts envCycle1 (some [pNoImage])).2 = some [pNoImage] ∧
      resolveImage
          (loadCache ((checkForNewProducts envCycle1 (some [pNoImage])).2))
          envCycle2.imageOk (envCycle2.freshIds 0) rE.name rE.imageUrl =
        some ("two0", true) ∧
      ("one0" : String) ≠ "two0" ∧
      (fetchProducts envCycle1 (loadCache (some [pNoImage]))).2 ++
          (fetchProducts envCycle2
            (loadCache ((checkForNewProducts envCycle1
              (some [pNoImage])).2))).2 =
        [rE.imageUrl, rE.imageUrl] :=
  ⟨rfl, rfl, rfl, by decide, rfl⟩

/-- C6 as amended: every record `fetchProducts` assembles (hence every
record the pipeline ever persists) carries an `imageId`; and whenever the
store record found for a name carries an `imageId`, resolution returns
exactly that identifier with no network download.  So two resolutions of the
same name across two cycles agree and download at most once *provided* the
store record visible to the second cycle carries the `imageId` field — which
holds whenever the first resolution's record was itself persisted, but fails
for a pre-existing store entry lacking `imageId`, which is re-downloaded
under a fresh identifier every cycle. -/
theorem image_stability_amended :
    (∀ (env : Env) (cached : List ProductRecord),
      ∀ p ∈ (fetchProducts env cached).1, p.imageId ≠ none) ∧
    (∀ (cached : List ProductRecord) (ok : String → Bool)
      (fresh name url : String) (c : ProductRecord) (id : String),
      cached.find? (fun q => q.name == name) = some c →
      c.imageId = some id →
      resolveImage cached ok fresh name url = some (id, false)) := by
  constructor
  · exact fetchProducts_imageId
  · intro cached ok fresh name url c id hfind hid
    unfold resolveImage
    rw [hfind]
    simp [hid]

/-- Witness for the amended C6: resolving `Alpha` against a store whose
`Alpha` record carries `imageId` `aaaa0000` returns that identifier with no
download. -/
theorem image_stability_amended_witness :
    resolveImage [pA] (fun _ => true) "freshX" "Alpha" pA.imageUrl =
      some ("aaaa0000", false) :=
  image_stability_amended.2 [pA] (fun _ => true) "freshX" "Alpha" pA.imageUrl
    pA "aaaa0000" rfl rfl

/-! ## C5: uniqueness of names in reachable stores -/

/-- Membership characterization of the diff (helper shared by several
proofs). -/
theorem mem_diffNew (current cached : List ProductRecord) (p : ProductRecord) :
    p ∈ diffNew current cached ↔
      p ∈ current ∧ ∀ c ∈ cached, c.name ≠ p.name := by
  simp only [diffNew, List.mem_filter, Bool.not_eq_true', List.any_eq_false,
    beq_iff_eq, ne_eq]

/-- A completed `for` loop produces records whose names are exactly the raw
products' names, in order. -/
theorem fetchLoop_names (cached : List ProductRecord) (ok : String → Bool)
    (fresh : Nat → String) :
    ∀ (raws : List RawProduct) (ctr : Nat) (ps : List ProductRecord)
      (dls : List String),
      fetchLoop cached ok fresh raws ctr = (some ps, dls) →
      ps.map ProductRecord.name = raws.map RawProduct.name := by
  intro raws
  induction raws with
  | nil =>
    intro ctr ps dls h
    simp only [fetchLoop, Prod.mk.injEq, Option.some.injEq] at h
    rw [← h.1]
    rfl
  | cons a t ih =>
    intro ctr ps dls h
    simp only [fetchLoop] at h
    rcases hres : resolveImage cached ok (fresh ctr) a.name a.imageUrl
      with _ | pr
    · rw [hres] at h
      simp at h
    · rcases pr with ⟨id, downloaded⟩
      rw [hres] at h
      simp only at h
      rcases hfl : fetchLoop cached ok fresh t
          (if downloaded then ctr + 1 else ctr) with ⟨o, dls'⟩
      rw [hfl] at h
      rcases o with _ | ps'
      · simp at h
      · simp only [Prod.mk.injEq, Option.some.injEq] at h
        rw [← h.1]
        simp only [List.map_cons]
        rw [ih (if downloaded then ctr + 1 else ctr) ps' dls' hfl]

/-- When the environment's extraction never repeats a name, the names of the
products `fetchProducts` returns are pairwise distinct. -/
theorem fetchProducts_names_nodup (env : Env) (cached : List ProductRecord)
    (hpage : pageNamesNodup env) :
    ((fetchProducts env cached).1.map ProductRecord.name).Nodup := by
  unfold fetchProducts
  rcases hp : env.page with _ | raws
  · simp
  · rcases hfl : fetchLoop cached env.imageOk env.freshIds raws 0 with ⟨o, dls⟩
    rcases o with _ | ps
    · simp [hfl]
    · simp only [hfl]
      rw [fetchLoop_names cached env.imageOk env.freshIds raws 0 ps dls hfl]
      exact hpage raws hp

/-- One cycle preserves distinctness of the stored names, provided the
extraction repeats no name: the appended new records have pairwise-distinct
names (a sub-sequence of the extraction) and none of them collides with a
cached name (the diff filtered those out). -/
theorem cycle_preserves_names_nodup (env : Env)
    (f : Option (List ProductRecord)) (hpage : pageNamesNodup env)
    (ihn : ((loadCache f).map ProductRecord.name).Nodup) :
    ((loadCache (checkForNewProducts env f).2).map
      ProductRecord.name).Nodup := by
  have hcur := fetchProducts_names_nodup env (loadCache f) hpage
  have hnew : ((diffNew (fetchProducts env (loadCache f)).1
      (loadCache f)).map ProductRecord.name).Nodup :=
    ((List.filter_sublist _).map ProductRecord.name).nodup hcur
  have hdisj : List.Disjoint ((loadCache f).map ProductRecord.name)
      ((diffNew (fetchProducts env (loadCache f)).1 (loadCache f)).map
        ProductRecord.name) := by
    intro x hx hmem
    rcases List.mem_map.mp hmem with ⟨p, hp, rfl⟩
    rcases List.mem_map.mp hx with ⟨c, hc, hcx⟩
    exact ((mem_diffNew _ _ p).mp hp).2 c hc hcx
  have hcomp : ProductRecord.name ∘ stamp env.now = ProductRecord.name := rfl
  have happend : ((loadCache f ++
      (diffNew (fetchProducts env (loadCache f)).1 (loadCache f)).map
        (stamp env.now)).map ProductRecord.name).Nodup := by
    rw [List.map_append, List.map_map, hcomp]
    exact List.nodup_append.mpr ⟨ihn, hnew, hdisj⟩
  have happend2 : ((loadCache f ++
      diffNew (fetchProducts env (loadCache f)).1 (loadCache f)).map
        ProductRecord.name).Nodup := by
    rw [List.map_append]
    exact List.nodup_append.mpr ⟨ihn, hnew, hdisj⟩
  simp only [checkForNewProducts]
  split
  · split
    · exact happend
    · exact ihn
  · split
    · exact happend2
    · exact ihn

/-- An environment extracting the same raw product twice (the listing page
repeating a name). -/
def envDup : Env :=
  { page := some [rB, rB], imageOk := fun _ => true,
    freshIds := fun n => "fresh" ++ toString n,
    now := "2024-02-02T00:00:00.000Z" }

/-- Counterexample to C5: one bootstrap cycle whose extraction lists `Beta`
twice produces a reachable persisted store holding two records named `Beta` —
both copies pass the diff against the empty known-set and both are appended
and saved. -/
theorem store_names_nodup_counterexample :
    ReachableFile (checkForNewProducts envDup none).2 ∧
      ¬ ((loadCache (checkForNewProducts envDup none).2).map
          ProductRecord.name).Nodup :=
  ⟨ReachableFile.step envDup ReachableFile.init, by decide⟩

/-- C5 as amended: every store state reachable from the empty store under
cycles whose extracted sequences have pairwise-distinct names holds no two
records with the same name.  (An extraction repeating a name — the case the
original claim also covered — can persist duplicate names, as the
counterexample shows.) -/
theorem store_names_nodup (f : Option (List ProductRecord))
    (h : ReachableFileNodup f) :
    ((loadCache f).map ProductRecord.name).Nodup := by
  induction h with
  | init => simp [loadCache]
  | step env hpage _ ih => exact cycle_preserves_names_nodup env _ hpage ih

/-- Witness for the amended C5: the store reached by one bootstrap cycle
extracting the single product `rB` has pairwise-distinct names. -/
theorem store_names_nodup_witness :
    ((loadCache (checkForNewProducts envB none).2).map
      ProductRecord.name).Nodup :=
  store_names_nodup _
    (ReachableFileNodup.step envB
      (by
        intro raws h
        have h2 : some [rB] = some raws := h
        injection h2 with h3
        subst h3
        decide)
      ReachableFileNodup.init)
